import Mathlib

/-!
Verification of the durable, CPU-admission-controlled job queue of
cf-clearance-scraper. The definitions below are a shallow embedding of the
fast-ack persistent variant in server.js (src/unnamed/part_000): the data
model (Job, Result, Snapshot), the retry policy, the worker loop, the
consuming result read, the TTL sweep, and the durable-store read path.
External effects (the pidusage sampler, the executors, timers and the file
system) are modelled as explicit inputs and effect lists.
-/

namespace CfClearance

/-- Request payload as submitted to the POST endpoint: the mode
discriminator plus the fields the executors consume (kept abstract here). -/
structure ReqData where
  mode : String
  url : String := ""
  authToken : Option String := none
deriving DecidableEq

/-- Queue entry, mirroring the object pushed in the submit handler:
a generated jobId, the request data, and the enqueue timestamp. -/
structure Job where
  jobId : String
  data : ReqData
  enqueuedAt : Nat := 0
deriving DecidableEq

/-- Raw process statistics as delivered by the pidusage sampler
(stats.cpu is a percent figure, stats.memory is in bytes). -/
structure PidStats where
  cpu : Rat
  memory : Rat := 0
deriving DecidableEq

/-- Output shape of getCpuStats (server.js lines 111-121). -/
structure CpuStats where
  cpuFraction : Rat
  cpuPercent : Rat
  cpuAvailable : Rat
  memoryGB : Rat
deriving DecidableEq

/-- Configured core count: const vCPU = 4 in server.js line 25.
A fixed in-code constant; it is not read from the environment. -/
def vCPU : Rat := 4

/-- Configured CPU threshold: const cpuThreshold = 0.85 in server.js
line 26. A fixed in-code constant; not read from the environment. -/
def cpuThreshold : Rat := (85 : Rat) / 100

/-- Rounding of memoryGB via Number(x.toFixed(2)): two decimal places. -/
def round2 (x : Rat) : Rat := ((⌊x * 100 + 1 / 2⌋ : Int) : Rat) / 100

/-- getCpuStats: normalizes the sampled cpu percent by 100 * vCPU,
derives the remaining headroom and the memory figure in GB. -/
def getCpuStats (raw : PidStats) : CpuStats :=
  { cpuFraction := raw.cpu / (100 * vCPU)
    cpuPercent := raw.cpu
    cpuAvailable := max 0 (1 - raw.cpu / (100 * vCPU))
    memoryGB := round2 (raw.memory / 1024 ^ 3) }

/-- canProcessNow: admission decision, cpuFraction < cpuThreshold,
recomputed from a fresh sample on every call (server.js lines 123-126). -/
def canProcessNow (raw : PidStats) : Bool :=
  decide ((getCpuStats raw).cpuFraction < cpuThreshold)

/-- The cpu object embedded into results and responses: percent,
available, memoryGB. The code never writes a finishedAt field into it;
the optional field exists because the sweep probes for it on arbitrary
persisted data. -/
structure CpuObj where
  percent : Rat
  available : Rat
  memoryGB : Rat
  finishedAt : Option Nat := none
deriving DecidableEq

/-- Builds the cpu object stored into a result from a getCpuStats sample.
No finishedAt field is ever produced (server.js lines 163-168, 180-185). -/
def resultCpu (stats : CpuStats) : CpuObj :=
  { percent := stats.cpuPercent
    available := stats.cpuAvailable
    memoryGB := stats.memoryGB
    finishedAt := none }

/-- A stored Result object. Fields mirror the JS objects built by
retryUntilSuccessOrGiveUp; the optional finishedAt and queueLengthTime
fields exist only because the TTL sweep probes persisted objects for
them - no code path ever sets either. -/
structure StoredResult where
  success : Bool
  code : Nat
  message : Option String := none
  source : Option String := none
  token : Option String := none
  wafData : Option String := none
  queueLength : Nat := 0
  cpu : Option CpuObj := none
  finishedAt : Option Nat := none
  queueLengthTime : Option Nat := none
deriving DecidableEq

/-- Outcome of one invocation of an executor capability (an awaited
promise): either resolves with a payload or rejects with an error. -/
inductive ExecOutcome where
  | resolved (payload : String)
  | thrown (msg : String)
deriving DecidableEq

/-- Result shape of processRequest before it is wrapped into a Result. -/
structure ProcOutcome where
  code : Nat
  message : Option String := none
  source : Option String := none
  token : Option String := none
  wafData : Option String := none
deriving DecidableEq

/-- Modes with a dispatch case in the processRequest switch. -/
def knownMode (m : String) : Bool :=
  m == "source" || m == "turnstile-min" || m == "turnstile-max" || m == "waf-session"

/-- processRequest (server.js lines 129-151): dispatch on data.mode to an
executor; a resolved executor promise is wrapped with code 200, a thrown
error is caught and normalized to code 500 with the error message, and an
unrecognized mode leaves the initial code-500 result without invoking any
executor. The second component counts executor invocations (0 or 1). -/
def processRequest (data : ReqData) (exec : ExecOutcome) : ProcOutcome × Nat :=
  if knownMode data.mode then
    match exec with
    | ExecOutcome.thrown m => ({ code := 500, message := some m }, 1)
    | ExecOutcome.resolved p =>
      if data.mode == "source" then ({ code := 200, source := some p }, 1)
      else if data.mode == "turnstile-min" then ({ code := 200, token := some p }, 1)
      else if data.mode == "turnstile-max" then ({ code := 200, token := some p }, 1)
      else ({ code := 200, wafData := some p }, 1)
  else ({ code := 500 }, 0)

/-- The give-up message template of server.js line 179. -/
def failMessage (maxRetry : Nat) : String :=
  "Failed after " ++ toString maxRetry ++ " retries"

/-- The terminal give-up Result (server.js lines 176-186): success false,
code 200, descriptive message, current queue length and cpu snapshot.
No finishedAt stamp is written. -/
def giveUpResult (maxRetry queueLen : Nat) (stats : CpuObj) : StoredResult :=
  { success := false
    code := 200
    message := some (failMessage maxRetry)
    queueLength := queueLen
    cpu := some stats }

/-- The success Result (server.js lines 160-169): success true, the
spread of the processRequest outcome, queue length and cpu snapshot.
No finishedAt stamp is written. -/
def successResult (r : ProcOutcome) (queueLen : Nat) (stats : CpuObj) : StoredResult :=
  { success := true
    code := r.code
    message := r.message
    source := r.source
    token := r.token
    wafData := r.wafData
    queueLength := queueLen
    cpu := some stats }

/-- Loop body of retryUntilSuccessOrGiveUp. The index i is the attempt
number (and the index of the last getCpuStats sample taken), count
accumulates executor invocations, fuel is the remaining attempts.
execs gives the outcome of the executor call made by attempt i; samples
gives the getCpuStats output observed after attempt i. -/
def retryAux (data : ReqData) (execs : Nat → ExecOutcome) (samples : Nat → CpuStats)
    (queueLen maxRetry : Nat) : Nat → Nat → Nat → StoredResult × Nat
  | i, count, 0 => (giveUpResult maxRetry queueLen (resultCpu (samples i)), count)
  | i, count, fuel + 1 =>
    let pr := processRequest data (execs i)
    if pr.1.code ≠ 500 then
      (successResult pr.1 queueLen (resultCpu (samples (i + 1))), count + pr.2)
    else
      retryAux data execs samples queueLen maxRetry (i + 1) (count + pr.2) fuel

/-- retryUntilSuccessOrGiveUp (server.js lines 154-187): up to maxRetry
attempts, returning on the first non-500 outcome, otherwise the terminal
give-up Result. The second component is the total number of executor
invocations performed. -/
def retryUntilSuccessOrGiveUp (data : ReqData) (execs : Nat → ExecOutcome)
    (samples : Nat → CpuStats) (queueLen maxRetry : Nat) : StoredResult × Nat :=
  retryAux data execs samples queueLen maxRetry 0 0 maxRetry

/-- The maxRetry value in force at the single worker call site
retryUntilSuccessOrGiveUp(data): the default parameter value 5. -/
def workerMaxRetry : Nat := 5

/-- The retry delay in force at the worker call site: the default
parameter value 2000 (milliseconds). -/
def workerRetryDelay : Nat := 2000

/-- Snapshot metadata (version and lastWriteAt of DEFAULT_DB.meta). -/
structure Meta where
  version : Nat := 1
  lastWriteAt : Option Nat := none
deriving DecidableEq

/-- The persisted snapshot: ordered queue, results keyed by jobId, meta.
The results mapping is an association list whose keys behave like JS
object keys (setting a key replaces any previous binding). -/
structure Snapshot where
  queue : List Job
  results : List (String × StoredResult)
  meta : Meta := {}
deriving DecidableEq

/-- DEFAULT_DB of server.js lines 32-39. -/
def defaultDb : Snapshot := { queue := [], results := [] }

/-- Lookup of db.results[jobId] (or resultsStore[jobId]). -/
def lookupResult (jid : String) (l : List (String × StoredResult)) : Option StoredResult :=
  (l.find? (fun p => p.1 == jid)).map Prod.snd

/-- Deletion of a key, as in delete db.results[jobId]. -/
def eraseResult (jid : String) (l : List (String × StoredResult)) :
    List (String × StoredResult) :=
  l.filter (fun p => !(p.1 == jid))

/-- Assignment db.results[jobId] = r: binds the key, replacing any
previous binding for it. -/
def insertResult (jid : String) (r : StoredResult) (l : List (String × StoredResult)) :
    List (String × StoredResult) :=
  (jid, r) :: eraseResult jid l

/-- The queue filter db.queue.filter(q => q.jobId !== jobId) used by both
the worker removal write and the consuming-read safety net. -/
def removeJobId (jid : String) (q : List Job) : List Job :=
  q.filter (fun j => !(j.jobId == jid))

/-- The removal mutator persisted by the worker right after shifting a
job (server.js lines 283-286): the durable queue minus this job. -/
def removalWrite (jid : String) (db : Snapshot) : Snapshot :=
  { db with queue := removeJobId jid db.queue }

/-- Boot hydration of the in-memory queue from the snapshot
(server.js line 312): the durable queue verbatim. -/
def hydrateQueue (db : Snapshot) : List Job := db.queue

/-- JS truthiness chain over optional numeric fields: x || d where an
absent field and the number 0 are both falsy. -/
def jsNumOr (o : Option Nat) (d : Nat) : Nat :=
  match o with
  | some n => if n = 0 then d else n
  | none => d

/-- The sweep anchor of server.js lines 327-328 and 338-339: the chain
result.finishedAt || result.cpu.finishedAt || 0. The fields are numeric
timestamps here, so the typeof-number test on the chain value always
passes and the queueLengthTime fallback branch is dead. -/
def sweepAnchor (r : StoredResult) : Nat :=
  jsNumOr r.finishedAt (jsNumOr (r.cpu.bind CpuObj.finishedAt) 0)

/-- The sweep eviction test of server.js lines 329 and 340: a truthy
(nonzero) anchor older than the TTL. -/
def shouldEvict (now ttl : Nat) (r : StoredResult) : Bool :=
  sweepAnchor r != 0 && decide (ttl < now - sweepAnchor r)

/-- One sweep pass over a results mapping, removing evicted entries. -/
def sweepResults (now ttl : Nat) (l : List (String × StoredResult)) :
    List (String × StoredResult) :=
  l.filter (fun p => !(shouldEvict now ttl p.2))

/-- Events of one worker-loop iteration, in program order: the in-memory
shift, the awaited durable removal write, the executor invocations made
by the retry policy, and the awaited durable result write
(server.js lines 273-297). -/
inductive QueueEvent where
  | popMem (jobId : String)
  | persistRemoval (jobId : String)
  | invokeExecutor (jobId : String)
  | persistResult (jobId : String)
deriving DecidableEq

/-- Sequential event trace of one iteration of the processQueue while
loop for the popped job j: shift, awaited removal write, the executor
invocations counted by the retry policy, then the awaited result write. -/
def processOneJobEvents (j : Job) (execs : Nat → ExecOutcome)
    (samples : Nat → CpuStats) (queueLen : Nat) : List QueueEvent :=
  QueueEvent.popMem j.jobId :: QueueEvent.persistRemoval j.jobId ::
    (List.replicate (retryUntilSuccessOrGiveUp j.data execs samples queueLen workerMaxRetry).2
        (QueueEvent.invokeExecutor j.jobId)
      ++ [QueueEvent.persistResult j.jobId])

/-- Whole-system state: the in-memory queue and results store, the
durable snapshot, the single-flight flag, the identity of the job popped
but not yet resolved, plus ghost fields recording how many drain loops
are active and the submission and processing orders. The meta stamping
done by queueWriteDb on every write is elided (no claim concerns meta). -/
structure SysState where
  requestQueue : List Job
  resultsStore : List (String × StoredResult)
  db : Snapshot
  processingQueue : Bool
  inflight : Option String
  loopCount : Nat
  submittedLog : List String
  processedLog : List String
deriving DecidableEq

/-- Fresh-process state: empty memory, default snapshot, idle loop. -/
def initState : SysState :=
  { requestQueue := []
    resultsStore := []
    db := defaultDb
    processingQueue := false
    inflight := none
    loopCount := 0
    submittedLog := []
    processedLog := [] }

/-- Body shapes of the result endpoint: the pending message object or a
delivered Result payload. -/
inductive GetBody where
  | pending
  | result (r : StoredResult)
deriving DecidableEq

/-- HTTP response of the result endpoint: status code plus body. -/
structure HttpResponse where
  status : Nat
  body : GetBody
deriving DecidableEq

/-- The GET /cf-clearance-result/:jobId handler (server.js lines
231-262): on a memory miss, backfill from the durable snapshot; if still
absent answer 200 pending; otherwise deliver the payload with 200 and
delete the entry from memory and from the durable results (also
filtering the durable queue as a safety net). -/
def getResultHandler (jid : String) (s : SysState) : HttpResponse × SysState :=
  let mem0 :=
    match lookupResult jid s.resultsStore with
    | some _ => s.resultsStore
    | none =>
      match lookupResult jid s.db.results with
      | some r => insertResult jid r s.resultsStore
      | none => s.resultsStore
  match lookupResult jid mem0 with
  | none => ({ status := 200, body := GetBody.pending }, { s with resultsStore := mem0 })
  | some payload =>
    ({ status := 200, body := GetBody.result payload },
      { s with
        resultsStore := eraseResult jid mem0
        db := { s.db with
          results := eraseResult jid s.db.results
          queue := removeJobId jid s.db.queue } })

/-- The state change of a successful consuming read: the entry leaves
the in-memory store, the durable results, and (as a safety net) the
durable queue. -/
def consumeState (jid : String) (s : SysState) : SysState :=
  { s with
    resultsStore := eraseResult jid s.resultsStore
    db := { s.db with
      results := eraseResult jid s.db.results
      queue := removeJobId jid s.db.queue } }

/-- One run of the periodic sweep (server.js lines 323-347): evict from
memory; only when at least one memory entry was evicted, run the same
eviction over the durable results. -/
def sweepStep (now ttl : Nat) (s : SysState) : SysState :=
  let changed := s.resultsStore.any (fun p => shouldEvict now ttl p.2)
  if changed then
    { s with
      resultsStore := sweepResults now ttl s.resultsStore
      db := { s.db with results := sweepResults now ttl s.db.results } }
  else { s with resultsStore := sweepResults now ttl s.resultsStore }

/-- Atomic operations of the system, each mirroring one code region that
runs without interleaving between its memory and durable effects. -/
inductive Step where
  | submit (j : Job)
  | drainEnter
  | popPersist
  | recordResult (r : StoredResult)
  | drainExit
  | readResult (jid : String)
  | sweep (now ttl : Nat)
deriving DecidableEq

/-- Transition function. submit appends to the tail of both queues
(lines 203-210); drainEnter is the single-flight guard of processQueue
(lines 269-270); popPersist shifts the head job and persists its removal
(lines 280-286); recordResult stores the terminal Result in memory and
durably (lines 292-297); drainExit clears the flag when the queue is
empty (line 302); readResult is the consuming read; sweep is the TTL
pass. Steps whose guard fails leave the state unchanged. -/
def step (s : SysState) : Step → SysState
  | Step.submit j =>
    { s with
      requestQueue := s.requestQueue ++ [j]
      db := { s.db with queue := s.db.queue ++ [j] }
      submittedLog := s.submittedLog ++ [j.jobId] }
  | Step.drainEnter =>
    match s.processingQueue, s.requestQueue with
    | false, _ :: _ => { s with processingQueue := true, loopCount := s.loopCount + 1 }
    | _, _ => s
  | Step.popPersist =>
    match s.processingQueue, s.inflight, s.requestQueue with
    | true, none, j :: rest =>
      { s with
        requestQueue := rest
        db := removalWrite j.jobId s.db
        inflight := some j.jobId
        processedLog := s.processedLog ++ [j.jobId] }
    | _, _, _ => s
  | Step.recordResult r =>
    match s.inflight with
    | some jid =>
      { s with
        resultsStore := insertResult jid r s.resultsStore
        db := { s.db with results := insertResult jid r s.db.results }
        inflight := none }
    | none => s
  | Step.drainExit =>
    match s.processingQueue, s.inflight, s.requestQueue with
    | true, none, [] => { s with processingQueue := false, loopCount := s.loopCount - 1 }
    | _, _, _ => s
  | Step.readResult jid => (getResultHandler jid s).2
  | Step.sweep now ttl => sweepStep now ttl s

/-- Runs a sequence of steps from a state. -/
def run (s : SysState) (tr : List Step) : SysState := tr.foldl step s

/-- Number of queue entries carrying a given job id. -/
def occQ (jid : String) (q : List Job) : Nat := q.countP (fun j => j.jobId == jid)

/-- Number of results-mapping entries carrying a given job id. -/
def occR (jid : String) (l : List (String × StoredResult)) : Nat :=
  l.countP (fun p => p.1 == jid)

/-- The claim C6 property: each job id occurs at most once across the
in-memory queue and results store together, and at most once across the
durable queue and durable results together. -/
def AtMostOnce (s : SysState) : Prop :=
  ∀ jid, occQ jid s.requestQueue + occR jid s.resultsStore ≤ 1
    ∧ occQ jid s.db.queue + occR jid s.db.results ≤ 1

/-- A popped-but-unresolved job id is in none of the four structures. -/
def InflightClear (s : SysState) : Prop :=
  ∀ jid, s.inflight = some jid →
    occQ jid s.requestQueue = 0 ∧ occR jid s.resultsStore = 0
    ∧ occQ jid s.db.queue = 0 ∧ occR jid s.db.results = 0

/-- Coupling fact: a job id with a durable result is no longer in the
in-memory queue (needed for the backfill path of the result read). -/
def NoQueuedResult (s : SysState) : Prop :=
  ∀ jid, occR jid s.db.results ≠ 0 → occQ jid s.requestQueue = 0

/-- Aggregate invariant carried through the induction for claim C6. -/
def Inv (s : SysState) : Prop := AtMostOnce s ∧ InflightClear s ∧ NoQueuedResult s

/-- A job id is fresh for a state when it occurs nowhere in it. This is
the uniqueness assumption on generated ids (Date.now plus random suffix). -/
def idFresh (s : SysState) (jid : String) : Prop :=
  occQ jid s.requestQueue = 0 ∧ occR jid s.resultsStore = 0
  ∧ occQ jid s.db.queue = 0 ∧ occR jid s.db.results = 0 ∧ s.inflight ≠ some jid

/-- Freshness precondition of a single step: only submissions carry one. -/
def stepFresh (s : SysState) : Step → Prop
  | Step.submit j => idFresh s j.jobId
  | _ => True

/-- Every submission along the trace uses an id fresh at that point. -/
def FreshTrace : SysState → List Step → Prop
  | _, [] => True
  | s, a :: tr => stepFresh s a ∧ FreshTrace (step s a) tr

/-- Ghost-log consistency: the submission order is the processing order
followed by the ids still queued. -/
def LogConsistent (s : SysState) : Prop :=
  s.submittedLog = s.processedLog ++ s.requestQueue.map Job.jobId

/-- Ghost-count consistency: the number of active drain loops is one
exactly when the single-flight flag is set. -/
def LoopFlagCount (s : SysState) : Prop :=
  s.loopCount = (if s.processingQueue then 1 else 0)

/-- Result of resolving a job id the way the result endpoint does:
memory first, durable snapshot second. -/
def resolvedLookup (jid : String) (s : SysState) : Option StoredResult :=
  match lookupResult jid s.resultsStore with
  | some r => some r
  | none => lookupResult jid s.db.results

/-- File-system and console effects of the durable-store read path. -/
inductive FsEffect where
  | copyFile (src dst : String)
  | writeFileAtomic (path : String) (snap : Snapshot)
  | logError (msg : String)
deriving DecidableEq

/-- Recognizer for console-log effects. -/
def isLogEffect : FsEffect → Bool
  | FsEffect.logError _ => true
  | _ => false

/-- Parsed meta object: each field may be missing. -/
structure ParsedMeta where
  version : Option Nat := none
  lastWriteAt : Option Nat := none
deriving DecidableEq

/-- Result of JSON.parse on the snapshot file: each top-level field is
present only when it passes the shape check of readDb (Array.isArray for
queue, typeof object for results, object spread for meta). -/
structure ParsedDb where
  queue : Option (List Job) := none
  results : Option (List (String × StoredResult)) := none
  meta : Option ParsedMeta := none
deriving DecidableEq

/-- Minimal healing of missing fields (server.js lines 63-67): absent or
wrongly-shaped fields fall back to the defaults of DEFAULT_DB. -/
def healDb (p : ParsedDb) : Snapshot :=
  { queue := p.queue.getD []
    results := p.results.getD []
    meta :=
      { version := (p.meta.bind ParsedMeta.version).getD 1
        lastWriteAt := p.meta.bind ParsedMeta.lastWriteAt } }

/-- The canonical snapshot path (DB_PATH, database.json). -/
def DB_PATH : String := "database.json"

/-- The backup path used on corruption: DB_PATH plus .bak- plus the
current timestamp (server.js line 71). -/
def bakPath (now : Nat) : String := DB_PATH ++ ".bak-" ++ toString now

/-- The default snapshot as persisted, with lastWriteAt stamped. -/
def defaultDbAt (now : Nat) : Snapshot :=
  { queue := [], results := [], meta := { version := 1, lastWriteAt := some now } }

/-- Observable state of the snapshot file when readDb runs. -/
inductive DbFileState where
  | missing
  | unparseable (raw : String)
  | parsed (p : ParsedDb)
deriving DecidableEq

/-- readDb (server.js lines 58-76). A parseable file is healed and
returned with no effects. An unparseable file is copied to the
timestamped backup path, the stamped default is persisted atomically,
and the unstamped default object is returned; no log effect is emitted
and no error escapes. A missing file takes the same catch path, but the
backup copy itself fails and is swallowed by the inner try. -/
def readDb (now : Nat) (file : DbFileState) : Snapshot × List FsEffect :=
  match file with
  | DbFileState.parsed p => (healDb p, [])
  | DbFileState.unparseable _ =>
    (defaultDb,
      [FsEffect.copyFile DB_PATH (bakPath now),
        FsEffect.writeFileAtomic DB_PATH (defaultDbAt now)])
  | DbFileState.missing =>
    (defaultDb, [FsEffect.writeFileAtomic DB_PATH (defaultDbAt now)])

/-- The environment configuration surface actually read by server.js
(authToken, PORT, timeOut, RESULT_TTL_MS), extended with the variables
the spec claims exist for threshold, core count, retries and delay. -/
structure Env where
  authToken : Option String := none
  port : Option Nat := none
  timeOut : Option Nat := none
  resultTtlMs : Option Nat := none
  cpuThresholdVar : Option Rat := none
  coreCountVar : Option Nat := none
  maxRetryVar : Option Nat := none
  retryDelayVar : Option Nat := none
deriving DecidableEq

/-- TTL_MS (server.js line 322): Number(process.env.RESULT_TTL_MS) with
a 15-minute default. This one really is environment-configurable. -/
def ttlMs (env : Env) : Nat := env.resultTtlMs.getD (15 * 60 * 1000)

/-- Modelled from the spec: claim C9 reads the CPU threshold from the
environment configuration surface. Defined only to compare against the
in-code constant cpuThreshold. -/
def cpuThresholdSpec (env : Env) : Rat := env.cpuThresholdVar.getD ((85 : Rat) / 100)

/-- Modelled from the spec: claim C9 reads the core-count assumption
from the environment. Compared against the in-code constant vCPU. -/
def coreCountSpec (env : Env) : Nat := env.coreCountVar.getD 4

/-- Modelled from the spec: claim C9 reads the retry bound from the
environment. Compared against workerMaxRetry. -/
def maxRetrySpec (env : Env) : Nat := env.maxRetryVar.getD 5

/-- Modelled from the spec: claim C9 reads the retry delay from the
environment. Compared against workerRetryDelay. -/
def retryDelaySpec (env : Env) : Nat := env.retryDelayVar.getD 2000

/-- Modelled from the spec: the admission decision using the
environment-configured threshold and core count of claim C9. -/
def canProcessNowSpec (env : Env) (raw : PidStats) : Bool :=
  decide (raw.cpu / (100 * (coreCountSpec env : Rat)) < cpuThresholdSpec env)

/-- Inputs of the submit handler checks (server.js lines 192-198). -/
structure SubmitCtx where
  validate : Bool
  authConfigured : Option String
  provided : Option String
  browserReady : Bool
deriving DecidableEq

/-- The auth rejection test authToken and data.authToken !== authToken. -/
def authRejects (ctx : SubmitCtx) : Bool :=
  match ctx.authConfigured with
  | some t => !(ctx.provided == some t)
  | none => false

/-- Acceptance body of the fast-ack submit response (lines 216-226). -/
structure AckBody where
  success : Bool
  status : String
  jobId : String
  queueLength : Nat
  cpu : CpuObj
deriving DecidableEq

/-- Responses of the POST /cf-clearance-scraper handler. -/
inductive PostResponse where
  | badRequest
  | unauthorized
  | notReady
  | queued (body : AckBody)
deriving DecidableEq

/-- The POST /cf-clearance-scraper handler outcome (server.js lines
190-227): validation, auth and readiness rejections, otherwise a 200
fast-ack whose body always carries success false and status queued. -/
def postSubmit (ctx : SubmitCtx) (jobId : String) (queueLenAfter : Nat)
    (stats : CpuStats) : PostResponse :=
  if !ctx.validate then PostResponse.badRequest
  else if authRejects ctx then PostResponse.unauthorized
  else if !ctx.browserReady then PostResponse.notReady
  else PostResponse.queued
    { success := false
      status := "queued"
      jobId := jobId
      queueLength := queueLenAfter
      cpu := resultCpu stats }

/-! Helper lemmas about the retry policy. -/

theorem processRequest_thrown (data : ReqData) (m : String)
    (hmode : knownMode data.mode = true) :
    processRequest data (ExecOutcome.thrown m) = ({ code := 500, message := some m }, 1) := by
  simp [processRequest, hmode]

theorem retryAux_all_thrown (data : ReqData) (execs : Nat → ExecOutcome)
    (samples : Nat → CpuStats) (queueLen maxRetry : Nat)
    (hmode : knownMode data.mode = true)
    (hfail : ∀ i, ∃ m, execs i = ExecOutcome.thrown m) :
    ∀ fuel i count, retryAux data execs samples queueLen maxRetry i count fuel
      = (giveUpResult maxRetry queueLen (resultCpu (samples (i + fuel))), count + fuel) := by
  intro fuel
  induction fuel with
  | zero => intro i count; simp [retryAux]
  | succ fuel ih =>
    intro i count
    obtain ⟨m, hm⟩ := hfail i
    have hpr := processRequest_thrown data m hmode
    have e1 : i + 1 + fuel = i + (fuel + 1) := by omega
    have e2 : count + 1 + fuel = count + (fuel + 1) := by omega
    have ih2 := ih (i + 1) (count + 1)
    rw [e1, e2] at ih2
    simp [retryAux, hm, hpr, ih2]

/-- Claim C2: when the executor fails on every attempt, the worker makes
exactly workerMaxRetry = 5 executor invocations and then returns the
terminal give-up Result with success false, code 200 and the descriptive
message. -/
theorem retry_exhausts_five_attempts (data : ReqData) (execs : Nat → ExecOutcome)
    (samples : Nat → CpuStats) (queueLen : Nat)
    (hmode : knownMode data.mode = true)
    (hfail : ∀ i, ∃ m, execs i = ExecOutcome.thrown m) :
    retryUntilSuccessOrGiveUp data execs samples queueLen workerMaxRetry
        = (giveUpResult 5 queueLen (resultCpu (samples 5)), 5)
    ∧ (retryUntilSuccessOrGiveUp data execs samples queueLen workerMaxRetry).1.success = false
    ∧ (retryUntilSuccessOrGiveUp data execs samples queueLen workerMaxRetry).1.code = 200
    ∧ (retryUntilSuccessOrGiveUp data execs samples queueLen workerMaxRetry).1.message
        = some "Failed after 5 retries" := by
  have key := retryAux_all_thrown data execs samples queueLen workerMaxRetry hmode hfail 5 0 0
  have key2 : retryUntilSuccessOrGiveUp data execs samples queueLen workerMaxRetry
      = (giveUpResult 5 queueLen (resultCpu (samples 5)), 5) := by
    simpa [retryUntilSuccessOrGiveUp, workerMaxRetry] using key
  refine ⟨key2, ?_, ?_, ?_⟩ <;> simp [key2, giveUpResult, failMessage] <;> rfl

/-- Witness for claim C2 at concrete inputs: a source-mode job whose
executor rejects on every attempt. -/
theorem retry_exhausts_five_attempts_witness :
    retryUntilSuccessOrGiveUp { mode := "source" } (fun _ => ExecOutcome.thrown "boom")
        (fun _ => { cpuFraction := 0, cpuPercent := 0, cpuAvailable := 1, memoryGB := 0 }) 0
        workerMaxRetry
      = (giveUpResult 5 0
          (resultCpu { cpuFraction := 0, cpuPercent := 0, cpuAvailable := 1, memoryGB := 0 }), 5) :=
  (retry_exhausts_five_attempts { mode := "source" } (fun _ => ExecOutcome.thrown "boom")
    (fun _ => { cpuFraction := 0, cpuPercent := 0, cpuAvailable := 1, memoryGB := 0 }) 0
    (by decide) (fun _ => ⟨"boom", rfl⟩)).1

/-! Helper lemmas about the sweep anchor of worker-produced results. -/

theorem retryAux_no_finishedAt (data : ReqData) (execs : Nat → ExecOutcome)
    (samples : Nat → CpuStats) (queueLen maxRetry : Nat) :
    ∀ fuel i count,
      (retryAux data execs samples queueLen maxRetry i count fuel).1.finishedAt = none
      ∧ (retryAux data execs samples queueLen maxRetry i count fuel).1.cpu.bind
          CpuObj.finishedAt = none := by
  intro fuel
  induction fuel with
  | zero => intro i count; simp [retryAux, giveUpResult, resultCpu]
  | succ fuel ih =>
    intro i count
    by_cases h : (processRequest data (execs i)).1.code = 500
    · simpa [retryAux, h] using ih (i + 1) (count + (processRequest data (execs i)).2)
    · simp [retryAux, h, successResult, resultCpu]

/-- Claim C3, code-side evidence: the Result the worker records never
carries a finishedAt stamp, so its sweep anchor is 0 and the TTL sweep
never evicts it, at any observation time and for any TTL. -/
theorem worker_results_never_swept (data : ReqData) (execs : Nat → ExecOutcome)
    (samples : Nat → CpuStats) (queueLen maxRetry now ttl : Nat) (jid : String) :
    (retryUntilSuccessOrGiveUp data execs samples queueLen maxRetry).1.finishedAt = none
    ∧ shouldEvict now ttl (retryUntilSuccessOrGiveUp data execs samples queueLen maxRetry).1
        = false
    ∧ sweepResults now ttl
          [(jid, (retryUntilSuccessOrGiveUp data execs samples queueLen maxRetry).1)]
        = [(jid, (retryUntilSuccessOrGiveUp data execs samples queueLen maxRetry).1)] := by
  obtain ⟨h1, h2⟩ := retryAux_no_finishedAt data execs samples queueLen maxRetry maxRetry 0 0
  have hf : (retryUntilSuccessOrGiveUp data execs samples queueLen maxRetry).1.finishedAt
      = none := h1
  have hb : (retryUntilSuccessOrGiveUp data execs samples queueLen maxRetry).1.cpu.bind
      CpuObj.finishedAt = none := h2
  have hanchor : sweepAnchor (retryUntilSuccessOrGiveUp data execs samples queueLen maxRetry).1
      = 0 := by
    rw [sweepAnchor, hf, hb]
    simp [jsNumOr]
  have hev : shouldEvict now ttl (retryUntilSuccessOrGiveUp data execs samples queueLen maxRetry).1
      = false := by
    simp [shouldEvict, hanchor]
  refine ⟨hf, hev, ?_⟩
  simp [sweepResults, hev]

/-- Claim C7 counterexample: at a concrete corrupt snapshot file, the
effect list of readDb contains a backup copy and the default rewrite but
no log effect at all, so the claim that read logs the loss is false of
the code. -/
theorem readDb_corrupt_logs_nothing :
    (readDb 1234 (DbFileState.unparseable "not json")).2.filter isLogEffect = []
    ∧ (readDb 1234 (DbFileState.unparseable "not json")).2
        = [FsEffect.copyFile DB_PATH (bakPath 1234),
            FsEffect.writeFileAtomic DB_PATH (defaultDbAt 1234)] := by
  constructor
  · rfl
  · rfl

/-- Claim C7 as amended: readDb on an unparseable snapshot copies the
corrupt file to the timestamped backup path (distinct from the canonical
path, so the canonical file is not overwritten by the copy), atomically
persists the stamped default snapshot, and returns the default empty
snapshot; it emits no log effect, and no error escapes (readDb is a
total function). -/
theorem readDb_corrupt_backs_up_and_resets (now : Nat) (raw : String) :
    readDb now (DbFileState.unparseable raw)
      = (defaultDb,
          [FsEffect.copyFile DB_PATH (bakPath now),
            FsEffect.writeFileAtomic DB_PATH (defaultDbAt now)])
    ∧ (readDb now (DbFileState.unparseable raw)).2.filter isLogEffect = []
    ∧ bakPath now ≠ DB_PATH := by
  refine ⟨rfl, rfl, ?_⟩
  intro h
  have h2 := congrArg String.length h
  rw [bakPath, DB_PATH, String.length_append, String.length_append] at h2
  rw [show ("database.json").length = 13 from rfl, show (".bak-").length = 5 from rfl] at h2
  omega

/-- Witness for claim C7 as amended, at a concrete timestamp and raw
content. -/
theorem readDb_corrupt_backs_up_and_resets_witness :
    bakPath 99 ≠ DB_PATH :=
  (readDb_corrupt_backs_up_and_resets 99 "oops").2.2

/-- Claim C9 counterexample: with a configured threshold of 0.95 and a
sampled cpu percent of 360 (fraction 0.9 under the fixed 4-core
normalization), the spec-modelled environment-driven admission decision
says yes while the code says no; likewise the configured retry count,
delay and core count differ from the fixed constants the code uses. -/
theorem config_ignores_env_counterexample :
    canProcessNowSpec { cpuThresholdVar := some ((95 : Rat) / 100) } { cpu := 360 } = true
    ∧ canProcessNow { cpu := 360 } = false
    ∧ maxRetrySpec { maxRetryVar := some 7 } = 7
    ∧ workerMaxRetry = 5
    ∧ retryDelaySpec { retryDelayVar := some 3000 } = 3000
    ∧ workerRetryDelay = 2000
    ∧ coreCountSpec { coreCountVar := some 8 } = 8
    ∧ vCPU = 4 := by
  refine ⟨?_, ?_, rfl, rfl, rfl, rfl, rfl, rfl⟩
  · simp only [canProcessNowSpec, coreCountSpec, cpuThresholdSpec, Option.getD_some,
      decide_eq_true_eq]
    norm_num
  · simp only [canProcessNow, getCpuStats, cpuThreshold, vCPU, decide_eq_false_iff_not, not_lt]
    norm_num

/-- Claim C9 as amended: the CPU threshold (0.85), the core-count
assumption (4), the maximum retry count (5), and the retry delay (2000
milliseconds) are fixed in-code constants that no environment value can
change, and the admission decision compares the sampled fraction against
the fixed threshold; of the tuning values, only the result TTL is taken
from the environment (RESULT_TTL_MS, default 15 minutes). -/
theorem config_fixed_constants (n : Nat) (raw : PidStats) :
    cpuThreshold = (85 : Rat) / 100
    ∧ vCPU = 4
    ∧ workerMaxRetry = 5
    ∧ workerRetryDelay = 2000
    ∧ canProcessNow raw = decide (raw.cpu / (100 * vCPU) < cpuThreshold)
    ∧ ttlMs { resultTtlMs := some n } = n
    ∧ ttlMs {} = 15 * 60 * 1000 := by
  exact ⟨rfl, rfl, rfl, rfl, by simp [canProcessNow, getCpuStats], rfl, rfl⟩

/-! Position analysis of the per-job worker trace, for claim C1. -/

theorem replicate_append_get (x y : QueueEvent) (n : Nat) :
    ∀ i e, (List.replicate n x ++ [y]).get? i = some e →
      (e = x ∧ i < n) ∨ (e = y ∧ i = n) := by
  induction n with
  | zero =>
    intro i e h
    cases i with
    | zero => simp at h; exact Or.inr ⟨h.symm, rfl⟩
    | succ i => simp at h
  | succ n ih =>
    intro i e h
    cases i with
    | zero =>
      simp [List.replicate_succ] at h
      exact Or.inl ⟨h.symm, Nat.succ_pos n⟩
    | succ i =>
      simp only [List.replicate_succ, List.cons_append, List.get?_cons_succ] at h
      rcases ih i e h with ⟨he, hi⟩ | ⟨he, hi⟩
      · exact Or.inl ⟨he, Nat.succ_lt_succ hi⟩
      · exact Or.inr ⟨he, by omega⟩

theorem processOneJobEvents_get (j : Job) (execs : Nat → ExecOutcome)
    (samples : Nat → CpuStats) (queueLen : Nat) :
    ∀ i e, (processOneJobEvents j execs samples queueLen).get? i = some e →
      (i = 0 ∧ e = QueueEvent.popMem j.jobId)
      ∨ (i = 1 ∧ e = QueueEvent.persistRemoval j.jobId)
      ∨ (2 ≤ i
          ∧ i < 2 + (retryUntilSuccessOrGiveUp j.data execs samples queueLen workerMaxRetry).2
          ∧ e = QueueEvent.invokeExecutor j.jobId)
      ∨ (i = 2 + (retryUntilSuccessOrGiveUp j.data execs samples queueLen workerMaxRetry).2
          ∧ e = QueueEvent.persistResult j.jobId) := by
  intro i e h
  cases i with
  | zero =>
    simp [processOneJobEvents] at h
    exact Or.inl ⟨rfl, h.symm⟩
  | succ i =>
    cases i with
    | zero =>
      simp [processOneJobEvents] at h
      exact Or.inr (Or.inl ⟨rfl, h.symm⟩)
    | succ i =>
      simp only [processOneJobEvents, List.get?_cons_succ] at h
      rcases replicate_append_get _ _ _ i e h with ⟨he, hi⟩ | ⟨he, hi⟩
      · exact Or.inr (Or.inr (Or.inl ⟨by omega, by omega, he⟩))
      · exact Or.inr (Or.inr (Or.inr ⟨by omega, he⟩))

/-- Claim C1: in the trace of one worker-loop iteration, the durable
removal write precedes every executor invocation for the popped job, and
the durable result write follows every executor invocation (hence also
the removal write, so the removal is never persisted after the result);
moreover, after the removal write the durable queue holds no entry with
this job id, so the queue a restart hydrates cannot reprocess it. -/
theorem removal_persisted_before_execution (j : Job) (execs : Nat → ExecOutcome)
    (samples : Nat → CpuStats) (queueLen : Nat) (db : Snapshot) :
    (∀ i1 i2,
        (processOneJobEvents j execs samples queueLen).get? i1
            = some (QueueEvent.persistRemoval j.jobId) →
        (processOneJobEvents j execs samples queueLen).get? i2
            = some (QueueEvent.invokeExecutor j.jobId) →
        i1 < i2)
    ∧ (∀ i2 i3,
        (processOneJobEvents j execs samples queueLen).get? i2
            = some (QueueEvent.invokeExecutor j.jobId) →
        (processOneJobEvents j execs samples queueLen).get? i3
            = some (QueueEvent.persistResult j.jobId) →
        i2 < i3)
    ∧ (∀ i1 i3,
        (processOneJobEvents j execs samples queueLen).get? i1
            = some (QueueEvent.persistRemoval j.jobId) →
        (processOneJobEvents j execs samples queueLen).get? i3
            = some (QueueEvent.persistResult j.jobId) →
        i1 < i3)
    ∧ occQ j.jobId (hydrateQueue (removalWrite j.jobId db)) = 0 := by
  have char := processOneJobEvents_get j execs samples queueLen
  refine ⟨?_, ?_, ?_, ?_⟩
  · intro i1 i2 h1 h2
    rcases char i1 _ h1 with ⟨_, he⟩ | ⟨hi, _⟩ | ⟨_, _, he⟩ | ⟨_, he⟩ <;>
      first
      | (exact absurd he (by simp))
      | (rcases char i2 _ h2 with ⟨_, he2⟩ | ⟨_, he2⟩ | ⟨hi2, _, _⟩ | ⟨_, he2⟩ <;>
          first
          | (exact absurd he2 (by simp))
          | omega)
  · intro i2 i3 h2 h3
    rcases char i2 _ h2 with ⟨_, he⟩ | ⟨_, he⟩ | ⟨hi2, hub, _⟩ | ⟨_, he⟩ <;>
      first
      | (exact absurd he (by simp))
      | (rcases char i3 _ h3 with ⟨_, he3⟩ | ⟨_, he3⟩ | ⟨_, _, he3⟩ | ⟨hi3, _⟩ <;>
          first
          | (exact absurd he3 (by simp))
          | omega)
  · intro i1 i3 h1 h3
    rcases char i1 _ h1 with ⟨_, he⟩ | ⟨hi1, _⟩ | ⟨_, _, he⟩ | ⟨_, he⟩ <;>
      first
      | (exact absurd he (by simp))
      | (rcases char i3 _ h3 with ⟨_, he3⟩ | ⟨_, he3⟩ | ⟨_, _, he3⟩ | ⟨hi3, _⟩ <;>
          first
          | (exact absurd he3 (by simp))
          | omega)
  · rw [hydrateQueue, removalWrite, removeJobId, occQ, List.countP_filter]
    simp

/-- Witness for claim C1: a concrete job whose executor always fails,
showing the removal write at position 1 precedes the first executor
invocation at position 2. -/
theorem removal_persisted_before_execution_witness :
    (processOneJobEvents { jobId := "j1", data := { mode := "source" } }
        (fun _ => ExecOutcome.thrown "x")
        (fun _ => { cpuFraction := 0, cpuPercent := 0, cpuAvailable := 1, memoryGB := 0 })
        0).get? 1
      = some (QueueEvent.persistRemoval "j1")
    ∧ (1 : Nat) < 2 :=
  ⟨rfl,
    (removal_persisted_before_execution { jobId := "j1", data := { mode := "source" } }
        (fun _ => ExecOutcome.thrown "x")
        (fun _ => { cpuFraction := 0, cpuPercent := 0, cpuAvailable := 1, memoryGB := 0 })
        0 defaultDb).1 1 2 rfl rfl⟩

/-! Occurrence-counting lemmas for the queue and results structures. -/

theorem occR_erase (jid k : String) (l : List (String × StoredResult)) :
    occR jid (eraseResult k l) = if jid = k then 0 else occR jid l := by
  rcases eq_or_ne jid k with h | h
  · subst h
    simp only [occR, eraseResult, List.countP_filter, if_pos rfl]
    simp
  · rw [if_neg h]
    simp only [occR, eraseResult, List.countP_filter]
    apply List.countP_congr
    intro x hx
    by_cases hx1 : x.1 = jid <;> simp [hx1, h]

theorem occR_insert (jid k : String) (r : StoredResult) (l : List (String × StoredResult)) :
    occR jid (insertResult k r l) = if jid = k then 1 else occR jid l := by
  have he := occR_erase jid k l
  rcases eq_or_ne jid k with h | h
  · subst h
    simp only [insertResult, occR, List.countP_cons] at he ⊢
    simp [he]
  · simp only [insertResult, occR, List.countP_cons] at he ⊢
    simp [he, h, Ne.symm h]

theorem occR_filter_le (p : String × StoredResult → Bool) (jid : String)
    (l : List (String × StoredResult)) :
    occR jid (l.filter p) ≤ occR jid l := by
  simp only [occR, List.countP_filter]
  apply List.countP_mono_left
  intro x hx hb
  simp only [Bool.and_eq_true] at hb
  exact hb.1

theorem occQ_remove (jid k : String) (q : List Job) :
    occQ jid (removeJobId k q) = if jid = k then 0 else occQ jid q := by
  rcases eq_or_ne jid k with h | h
  · subst h
    simp only [occQ, removeJobId, List.countP_filter, if_pos rfl]
    simp
  · rw [if_neg h]
    simp only [occQ, removeJobId, List.countP_filter]
    apply List.countP_congr
    intro x hx
    by_cases hx1 : x.jobId = jid <;> simp [hx1, h]

theorem occQ_append (jid : String) (q1 q2 : List Job) :
    occQ jid (q1 ++ q2) = occQ jid q1 + occQ jid q2 := by
  simp [occQ, List.countP_append]

theorem occR_append (jid : String) (l1 l2 : List (String × StoredResult)) :
    occR jid (l1 ++ l2) = occR jid l1 + occR jid l2 := by
  simp [occR, List.countP_append]

theorem lookupResult_none_iff (jid : String) (l : List (String × StoredResult)) :
    lookupResult jid l = none ↔ occR jid l = 0 := by
  simp [lookupResult, occR, List.find?_eq_none, List.countP_eq_zero]

theorem lookupResult_insert_self (jid : String) (r : StoredResult)
    (l : List (String × StoredResult)) :
    lookupResult jid (insertResult jid r l) = some r := by
  simp [lookupResult, insertResult]

theorem lookupResult_erase_self (jid : String) (l : List (String × StoredResult)) :
    lookupResult jid (eraseResult jid l) = none := by
  rw [lookupResult_none_iff, occR_erase]
  simp

theorem eraseResult_insert_self (k : String) (r : StoredResult)
    (l : List (String × StoredResult)) :
    eraseResult k (insertResult k r l) = eraseResult k l := by
  simp [insertResult, eraseResult, List.filter_filter]

theorem lookupResult_some_occ (jid : String) (r : StoredResult)
    (l : List (String × StoredResult)) (h : lookupResult jid l = some r) :
    occR jid l ≠ 0 := by
  intro h0
  rw [← lookupResult_none_iff] at h0
  rw [h0] at h
  cases h

theorem occQ_cons (jid : String) (j : Job) (q : List Job) :
    occQ jid (j :: q) = occQ jid q + (if j.jobId = jid then 1 else 0) := by
  simp only [occQ, List.countP_cons]
  rcases eq_or_ne j.jobId jid with h | h <;> simp [h]

theorem occQ_single (jid : String) (j : Job) :
    occQ jid [j] = if j.jobId = jid then 1 else 0 := by
  have := occQ_cons jid j []
  simpa [occQ] using this

/-! Characterization of the result-endpoint handler. -/

theorem getResultHandler_absent (jid : String) (s : SysState)
    (h : resolvedLookup jid s = none) :
    getResultHandler jid s = ({ status := 200, body := GetBody.pending }, s) := by
  cases hm : lookupResult jid s.resultsStore with
  | some r0 =>
    simp only [resolvedLookup, hm] at h
    cases h
  | none =>
    simp only [resolvedLookup, hm] at h
    simp [getResultHandler, hm, h]

theorem getResultHandler_resolved (jid : String) (s : SysState) (r : StoredResult)
    (h : resolvedLookup jid s = some r) :
    getResultHandler jid s
      = ({ status := 200, body := GetBody.result r }, consumeState jid s) := by
  cases hm : lookupResult jid s.resultsStore with
  | some r0 =>
    simp only [resolvedLookup, hm, Option.some.injEq] at h
    subst h
    simp [getResultHandler, hm, consumeState]
  | none =>
    simp only [resolvedLookup, hm] at h
    simp [getResultHandler, hm, h, lookupResult_insert_self, eraseResult_insert_self,
      consumeState]

theorem resolvedLookup_consume (jid : String) (s : SysState) :
    resolvedLookup jid (consumeState jid s) = none := by
  simp [resolvedLookup, consumeState, lookupResult_erase_self]

/-- Claim C4: for a resolved job id, the first GET delivers the stored
Result with HTTP 200 and deletes the entry from the in-memory store and
the durable results; the second GET answers 200 pending and leaves the
state unchanged, so every further GET answers the same. -/
theorem consuming_read_idempotent (s : SysState) (jid : String) (r : StoredResult)
    (h : resolvedLookup jid s = some r) :
    (getResultHandler jid s).1 = { status := 200, body := GetBody.result r }
    ∧ lookupResult jid (getResultHandler jid s).2.resultsStore = none
    ∧ lookupResult jid (getResultHandler jid s).2.db.results = none
    ∧ (getResultHandler jid (getResultHandler jid s).2).1
        = { status := 200, body := GetBody.pending }
    ∧ (getResultHandler jid (getResultHandler jid s).2).2 = (getResultHandler jid s).2 := by
  have h1 := getResultHandler_resolved jid s r h
  have h2 := getResultHandler_absent jid (consumeState jid s) (resolvedLookup_consume jid s)
  refine ⟨by rw [h1], ?_, ?_, ?_, ?_⟩
  · rw [h1]
    exact lookupResult_erase_self jid s.resultsStore
  · rw [h1]
    exact lookupResult_erase_self jid s.db.results
  · rw [h1]
    simpa using congrArg Prod.fst h2
  · rw [h1]
    simpa using congrArg Prod.snd h2

/-- Witness for claim C4: a state holding one resolved result. -/
theorem consuming_read_idempotent_witness :
    resolvedLookup "a"
        { initState with resultsStore := [("a", { success := true, code := 200 })] }
      = some { success := true, code := 200 }
    ∧ (getResultHandler "a"
          { initState with resultsStore := [("a", { success := true, code := 200 })] }).1
        = { status := 200, body := GetBody.result { success := true, code := 200 } } :=
  ⟨rfl,
    (consuming_read_idempotent
      { initState with resultsStore := [("a", { success := true, code := 200 })] }
      "a" { success := true, code := 200 } rfl).1⟩

/-- Claim C10: whenever the submit handler accepts a request, the 200
fast-ack body carries success false together with status queued, so the
success flag of the acceptance response never distinguishes queued work
from failure. -/
theorem accepted_ack_success_false (ctx : SubmitCtx) (jobId : String) (q : Nat)
    (stats : CpuStats)
    (h1 : ctx.validate = true) (h2 : authRejects ctx = false)
    (h3 : ctx.browserReady = true) :
    postSubmit ctx jobId q stats
      = PostResponse.queued
          { success := false, status := "queued", jobId := jobId, queueLength := q,
            cpu := resultCpu stats }
    ∧ ∀ body, postSubmit ctx jobId q stats = PostResponse.queued body →
        body.success = false ∧ body.status = "queued" := by
  have key : postSubmit ctx jobId q stats
      = PostResponse.queued
          { success := false, status := "queued", jobId := jobId, queueLength := q,
            cpu := resultCpu stats } := by
    simp [postSubmit, h1, h2, h3]
  refine ⟨key, ?_⟩
  intro body hb
  rw [key] at hb
  cases hb
  exact ⟨rfl, rfl⟩

/-- Witness for claim C10: a concrete accepted submission. -/
theorem accepted_ack_success_false_witness :
    postSubmit
        { validate := true, authConfigured := none, provided := none, browserReady := true }
        "job-1" 1
        { cpuFraction := 0, cpuPercent := 0, cpuAvailable := 1, memoryGB := 0 }
      = PostResponse.queued
          { success := false, status := "queued", jobId := "job-1", queueLength := 1,
            cpu := resultCpu
              { cpuFraction := 0, cpuPercent := 0, cpuAvailable := 1, memoryGB := 0 } } :=
  (accepted_ack_success_false
    { validate := true, authConfigured := none, provided := none, browserReady := true }
    "job-1" 1 { cpuFraction := 0, cpuPercent := 0, cpuAvailable := 1, memoryGB := 0 }
    rfl rfl rfl).1

/-! Preservation lemmas for the worker-loop state machine. -/

theorem getResultHandler_state_fields (jid : String) (s : SysState) :
    (getResultHandler jid s).2.requestQueue = s.requestQueue
    ∧ (getResultHandler jid s).2.processingQueue = s.processingQueue
    ∧ (getResultHandler jid s).2.inflight = s.inflight
    ∧ (getResultHandler jid s).2.loopCount = s.loopCount
    ∧ (getResultHandler jid s).2.submittedLog = s.submittedLog
    ∧ (getResultHandler jid s).2.processedLog = s.processedLog := by
  cases hr : resolvedLookup jid s with
  | none =>
    rw [getResultHandler_absent jid s hr]
    exact ⟨rfl, rfl, rfl, rfl, rfl, rfl⟩
  | some r =>
    rw [getResultHandler_resolved jid s r hr]
    simp [consumeState]

theorem sweepStep_state_fields (now ttl : Nat) (s : SysState) :
    (sweepStep now ttl s).requestQueue = s.requestQueue
    ∧ (sweepStep now ttl s).processingQueue = s.processingQueue
    ∧ (sweepStep now ttl s).inflight = s.inflight
    ∧ (sweepStep now ttl s).loopCount = s.loopCount
    ∧ (sweepStep now ttl s).submittedLog = s.submittedLog
    ∧ (sweepStep now ttl s).processedLog = s.processedLog
    ∧ (sweepStep now ttl s).db.queue = s.db.queue := by
  unfold sweepStep
  by_cases h : s.resultsStore.any (fun p => shouldEvict now ttl p.2) <;> simp [h]

theorem logConsistent_step (s : SysState) (a : Step) (h : LogConsistent s) :
    LogConsistent (step s a) := by
  cases a with
  | submit j =>
    simp only [LogConsistent, step, List.map_append] at h ⊢
    simp [h, List.append_assoc]
  | drainEnter =>
    rcases hp : s.processingQueue <;> rcases hq : s.requestQueue with _ | ⟨j, rest⟩ <;>
      (simp only [LogConsistent, step, hp, hq] at h ⊢ <;> simpa [hq] using h)
  | popPersist =>
    rcases hp : s.processingQueue <;> rcases hi : s.inflight with _ | jid0 <;>
      rcases hq : s.requestQueue with _ | ⟨j, rest⟩ <;>
      (simp only [LogConsistent, step, hp, hi, hq] at h ⊢
       first
       | (simpa [hq] using h)
       | simp [h, List.append_assoc])
  | recordResult r =>
    rcases hi : s.inflight with _ | jid0 <;>
      (simp only [LogConsistent, step, hi] at h ⊢
       exact h)
  | drainExit =>
    rcases hp : s.processingQueue <;> rcases hi : s.inflight with _ | jid0 <;>
      rcases hq : s.requestQueue with _ | ⟨j, rest⟩ <;>
      (simp only [LogConsistent, step, hp, hi, hq] at h ⊢
       simpa [hq] using h)
  | readResult jid =>
    obtain ⟨e1, e2, e3, e4, e5, e6⟩ := getResultHandler_state_fields jid s
    simp only [LogConsistent, step] at h ⊢
    rw [e1, e5, e6]
    exact h
  | sweep now ttl =>
    obtain ⟨e1, e2, e3, e4, e5, e6, e7⟩ := sweepStep_state_fields now ttl s
    simp only [LogConsistent, step] at h ⊢
    rw [e1, e5, e6]
    exact h

theorem loopFlag_step (s : SysState) (a : Step) (h : LoopFlagCount s) :
    LoopFlagCount (step s a) := by
  cases a with
  | submit j => simpa [LoopFlagCount, step] using h
  | drainEnter =>
    rcases hp : s.processingQueue <;> rcases hq : s.requestQueue with _ | ⟨j, rest⟩ <;>
      (simp only [LoopFlagCount, step, hp, hq] at h ⊢
       simp [h])
  | popPersist =>
    rcases hp : s.processingQueue <;> rcases hi : s.inflight with _ | jid0 <;>
      rcases hq : s.requestQueue with _ | ⟨j, rest⟩ <;>
      (simp only [LoopFlagCount, step, hp, hi, hq] at h ⊢
       simp [h, hp])
  | recordResult r =>
    rcases hi : s.inflight with _ | jid0 <;>
      (simp only [LoopFlagCount, step, hi] at h ⊢
       exact h)
  | drainExit =>
    rcases hp : s.processingQueue <;> rcases hi : s.inflight with _ | jid0 <;>
      rcases hq : s.requestQueue with _ | ⟨j, rest⟩ <;>
      (simp only [LoopFlagCount, step, hp, hi, hq] at h ⊢
       simp [h, hp])
  | readResult jid =>
    obtain ⟨e1, e2, e3, e4, e5, e6⟩ := getResultHandler_state_fields jid s
    simp only [LoopFlagCount, step] at h ⊢
    simp only [e2, e4]
    exact h
  | sweep now ttl =>
    obtain ⟨e1, e2, e3, e4, e5, e6, e7⟩ := sweepStep_state_fields now ttl s
    simp only [LoopFlagCount, step] at h ⊢
    simp only [e2, e4]
    exact h

theorem logConsistent_run (s0 : SysState) (tr : List Step) (h : LogConsistent s0) :
    LogConsistent (run s0 tr) := by
  induction tr generalizing s0 with
  | nil => exact h
  | cons a tr ih => exact ih (step s0 a) (logConsistent_step s0 a h)

theorem loopFlag_run (s0 : SysState) (tr : List Step) (h : LoopFlagCount s0) :
    LoopFlagCount (run s0 tr) := by
  induction tr generalizing s0 with
  | nil => exact h
  | cons a tr ih => exact ih (step s0 a) (loopFlag_step s0 a h)

theorem inv_consumeState (jid0 : String) (s : SysState) (hInv : Inv s) :
    Inv (consumeState jid0 s) := by
  obtain ⟨hA, hI, hN⟩ := hInv
  refine ⟨?_, ?_, ?_⟩
  · intro jid
    obtain ⟨ham, had⟩ := hA jid
    dsimp only [consumeState]
    rw [occR_erase, occR_erase, occQ_remove]
    rcases eq_or_ne jid jid0 with h | h
    · subst h
      simp
      omega
    · simp only [if_neg h]
      exact ⟨ham, had⟩
  · intro jid hjid
    dsimp only [consumeState] at hjid
    obtain ⟨z1, z2, z3, z4⟩ := hI jid hjid
    dsimp only [consumeState]
    rw [occR_erase, occR_erase, occQ_remove]
    rcases eq_or_ne jid jid0 with h | h
    · subst h
      simp [z1]
    · simp only [if_neg h]
      exact ⟨z1, z2, z3, z4⟩
  · intro jid hr
    dsimp only [consumeState] at hr ⊢
    rw [occR_erase] at hr
    rcases eq_or_ne jid jid0 with h | h
    · simp [h] at hr
    · rw [if_neg h] at hr
      exact hN jid hr

theorem inv_popState (j : Job) (rest : List Job) (s : SysState) (hInv : Inv s)
    (hq : s.requestQueue = j :: rest) :
    Inv { s with
      requestQueue := rest
      db := removalWrite j.jobId s.db
      inflight := some j.jobId
      processedLog := s.processedLog ++ [j.jobId] } := by
  obtain ⟨hA, hI, hN⟩ := hInv
  have hone := (hA j.jobId).1
  rw [hq, occQ_cons, if_pos rfl] at hone
  have hz1 : occQ j.jobId rest = 0 := by omega
  have hz2 : occR j.jobId s.resultsStore = 0 := by omega
  have hdbres : occR j.jobId s.db.results = 0 := by
    by_contra hne
    have h0 := hN j.jobId hne
    rw [hq, occQ_cons, if_pos rfl] at h0
    omega
  refine ⟨?_, ?_, ?_⟩
  · intro jid
    obtain ⟨ham, had⟩ := hA jid
    rw [hq, occQ_cons] at ham
    dsimp only [removalWrite]
    rw [occQ_remove]
    constructor
    · rcases eq_or_ne j.jobId jid with h | h
      · rw [if_pos h] at ham
        omega
      · rw [if_neg h] at ham
        omega
    · rcases eq_or_ne jid j.jobId with h | h
      · subst h
        rw [if_pos rfl, hdbres]
        omega
      · rw [if_neg h]
        exact had
  · intro jid hjid
    dsimp only at hjid
    injection hjid with h
    subst h
    refine ⟨hz1, hz2, ?_, hdbres⟩
    dsimp only [removalWrite]
    rw [occQ_remove, if_pos rfl]
  · intro jid hr
    dsimp only [removalWrite] at hr ⊢
    have h0 := hN jid hr
    rw [hq, occQ_cons] at h0
    omega

theorem inv_recordState (jid0 : String) (r : StoredResult) (s : SysState) (hInv : Inv s)
    (hi : s.inflight = some jid0) :
    Inv { s with
      resultsStore := insertResult jid0 r s.resultsStore
      db := { s.db with results := insertResult jid0 r s.db.results }
      inflight := none } := by
  obtain ⟨hA, hI, hN⟩ := hInv
  obtain ⟨z1, z2, z3, z4⟩ := hI jid0 hi
  refine ⟨?_, ?_, ?_⟩
  · intro jid
    obtain ⟨ham, had⟩ := hA jid
    dsimp only
    rw [occR_insert, occR_insert]
    rcases eq_or_ne jid jid0 with h | h
    · subst h
      rw [if_pos rfl, if_pos rfl, z1, z3]
      omega
    · rw [if_neg h, if_neg h]
      exact ⟨ham, had⟩
  · intro jid hjid
    dsimp only at hjid
    cases hjid
  · intro jid hr
    dsimp only at hr ⊢
    rw [occR_insert] at hr
    rcases eq_or_ne jid jid0 with h | h
    · subst h
      exact z1
    · rw [if_neg h] at hr
      exact hN jid hr

theorem inv_step (s : SysState) (a : Step) (hInv : Inv s) (hf : stepFresh s a) :
    Inv (step s a) := by
  obtain ⟨hA, hI, hN⟩ := hInv
  cases a with
  | submit j =>
    obtain ⟨f1, f2, f3, f4, f5⟩ := hf
    refine ⟨?_, ?_, ?_⟩
    · intro jid
      obtain ⟨ham, had⟩ := hA jid
      dsimp only [step]
      rw [occQ_append, occQ_single, occQ_append, occQ_single]
      rcases eq_or_ne j.jobId jid with h | h
      · subst h
        rw [if_pos rfl, f1, f2, f3, f4]
        omega
      · rw [if_neg h]
        exact ⟨by omega, by omega⟩
    · intro jid hjid
      dsimp only [step] at hjid
      obtain ⟨z1, z2, z3, z4⟩ := hI jid hjid
      have hne : j.jobId ≠ jid := by
        intro hcontra
        rw [hcontra] at f5
        exact f5 hjid
      dsimp only [step]
      rw [occQ_append, occQ_single, if_neg hne]
      refine ⟨by omega, z2, ?_, z4⟩
      rw [occQ_append, occQ_single, if_neg hne]
      omega
    · intro jid hr
      dsimp only [step] at hr ⊢
      rcases eq_or_ne j.jobId jid with h | h
      · subst h
        exact absurd f4 hr
      · rw [occQ_append, occQ_single, if_neg h]
        have h0 := hN jid hr
        omega
  | drainEnter =>
    rcases hp : s.processingQueue <;> rcases hq : s.requestQueue with _ | ⟨j, rest⟩ <;>
      (simp only [step, hp, hq]
       try rw [← hq]
       exact ⟨hA, hI, hN⟩)
  | popPersist =>
    rcases hp : s.processingQueue <;> rcases hi : s.inflight with _ | jid0 <;>
      rcases hq : s.requestQueue with _ | ⟨j, rest⟩ <;>
      (simp only [step, hp, hi, hq]
       first
       | exact ⟨hA, hI, hN⟩
       | exact inv_popState j rest s ⟨hA, hI, hN⟩ hq
       | (rw [← hq]
          exact ⟨hA, hI, hN⟩))
  | recordResult r =>
    rcases hi : s.inflight with _ | jid0
    · simp only [step, hi]
      exact ⟨hA, hI, hN⟩
    · simp only [step, hi]
      exact inv_recordState jid0 r s ⟨hA, hI, hN⟩ hi
  | drainExit =>
    rcases hp : s.processingQueue <;> rcases hi : s.inflight with _ | jid0 <;>
      rcases hq : s.requestQueue with _ | ⟨j, rest⟩ <;>
      (simp only [step, hp, hi, hq]
       try rw [← hq]
       first
       | exact ⟨hA, hI, hN⟩
       | (refine ⟨hA, ?_, hN⟩
          intro jid hjid
          dsimp only at hjid
          cases hjid))
  | readResult jid0 =>
    cases hr : resolvedLookup jid0 s with
    | none =>
      have he := getResultHandler_absent jid0 s hr
      simp only [step, he]
      exact ⟨hA, hI, hN⟩
    | some r =>
      have he := getResultHandler_resolved jid0 s r hr
      simp only [step, he]
      exact inv_consumeState jid0 s ⟨hA, hI, hN⟩
  | sweep now ttl =>
    have hmle : ∀ jid, occR jid (sweepResults now ttl s.resultsStore)
        ≤ occR jid s.resultsStore := fun jid => occR_filter_le _ jid _
    have hdle : ∀ jid, occR jid (sweepResults now ttl s.db.results)
        ≤ occR jid s.db.results := fun jid => occR_filter_le _ jid _
    simp only [step, sweepStep]
    by_cases hc : s.resultsStore.any (fun p => shouldEvict now ttl p.2) <;>
      simp only [hc, if_true, if_false, Bool.false_eq_true, reduceIte]
    · refine ⟨?_, ?_, ?_⟩
      · intro jid
        obtain ⟨ham, had⟩ := hA jid
        dsimp only
        exact ⟨by have := hmle jid; omega, by have := hdle jid; omega⟩
      · intro jid hjid
        dsimp only at hjid
        obtain ⟨z1, z2, z3, z4⟩ := hI jid hjid
        dsimp only
        refine ⟨z1, ?_, z3, ?_⟩
        · have := hmle jid
          omega
        · have := hdle jid
          omega
      · intro jid hr
        dsimp only at hr ⊢
        have hr0 : occR jid s.db.results ≠ 0 := by
          have := hdle jid
          omega
        exact hN jid hr0
    · refine ⟨?_, ?_, ?_⟩
      · intro jid
        obtain ⟨ham, had⟩ := hA jid
        dsimp only
        exact ⟨by have := hmle jid; omega, had⟩
      · intro jid hjid
        dsimp only at hjid
        obtain ⟨z1, z2, z3, z4⟩ := hI jid hjid
        dsimp only
        refine ⟨z1, ?_, z3, z4⟩
        have := hmle jid
        omega
      · intro jid hr
        dsimp only at hr ⊢
        exact hN jid hr

theorem inv_run (s0 : SysState) (tr : List Step) (h0 : Inv s0) (hf : FreshTrace s0 tr) :
    Inv (run s0 tr) := by
  induction tr generalizing s0 with
  | nil => exact h0
  | cons a tr ih =>
    obtain ⟨hfa, hft⟩ := hf
    exact ih (step s0 a) (inv_step s0 a h0 hfa) hft

theorem inv_initState : Inv initState := by
  refine ⟨?_, ?_, ?_⟩
  · intro jid
    simp [initState, defaultDb, occQ, occR]
  · intro jid h
    simp [initState] at h
  · intro jid h
    simp [initState, defaultDb, occR] at h

/-- Claim C6: from any state satisfying the invariant (the empty boot
state in particular), after any sequence of operations whose submissions
use fresh job ids, a given job id occurs in at most one of the pending
queue and the results store, and at most once within each, both in
memory and in the durable snapshot. -/
theorem job_ids_at_most_once (s0 : SysState) (tr : List Step)
    (h0 : Inv s0) (hf : FreshTrace s0 tr) :
    AtMostOnce (run s0 tr) :=
  (inv_run s0 tr h0 hf).1

/-- Witness for claim C6: one fresh submission from the boot state. -/
theorem job_ids_at_most_once_witness :
    occQ "j1"
        (run initState [Step.submit { jobId := "j1", data := { mode := "source" } }]).requestQueue
      + occR "j1"
        (run initState [Step.submit { jobId := "j1", data := { mode := "source" } }]).resultsStore
      ≤ 1 := by
  have hf : FreshTrace initState [Step.submit { jobId := "j1", data := { mode := "source" } }] := by
    refine ⟨⟨?_, ?_, ?_, ?_, ?_⟩, trivial⟩ <;> simp [initState, defaultDb, occQ, occR]
  exact (job_ids_at_most_once initState
    [Step.submit { jobId := "j1", data := { mode := "source" } }] inv_initState hf "j1").1

/-- Claim C5: over any run from the boot state, the sequence of job ids
whose execution has begun is an initial segment of the submission
sequence (strict FIFO: nothing ever overtakes an earlier submission);
moreover a submission appends to the tail of the in-memory queue, and
the worker pops exactly the head of the queue. -/
theorem fifo_processing_order (tr : List Step) :
    (run initState tr).processedLog
      = (run initState tr).submittedLog.take (run initState tr).processedLog.length
    ∧ (∀ (s : SysState) (j : Job),
        (step s (Step.submit j)).requestQueue = s.requestQueue ++ [j])
    ∧ (∀ (s : SysState) (j : Job) (rest : List Job),
        s.processingQueue = true → s.inflight = none → s.requestQueue = j :: rest →
        (step s Step.popPersist).requestQueue = rest
        ∧ (step s Step.popPersist).processedLog = s.processedLog ++ [j.jobId]) := by
  refine ⟨?_, ?_, ?_⟩
  · have hlog : LogConsistent (run initState tr) :=
      logConsistent_run initState tr (by simp [LogConsistent, initState])
    rw [LogConsistent] at hlog
    rw [hlog, List.take_left]
  · intro s j
    rfl
  · intro s j rest hp hi hq
    constructor
    · simp only [step, hp, hi, hq]
    · simp only [step, hp, hi, hq]

/-- Witness for claim C5: popping from a one-element queue removes the
head and appends its id to the processing order. -/
theorem fifo_processing_order_witness :
    (step
        { initState with
          processingQueue := true
          requestQueue := [{ jobId := "j1", data := { mode := "source" } }] }
        Step.popPersist).requestQueue = []
    ∧ (step
        { initState with
          processingQueue := true
          requestQueue := [{ jobId := "j1", data := { mode := "source" } }] }
        Step.popPersist).processedLog = initState.processedLog ++ ["j1"] :=
  (fifo_processing_order []).2.2
    { initState with
      processingQueue := true
      requestQueue := [{ jobId := "j1", data := { mode := "source" } }] }
    { jobId := "j1", data := { mode := "source" } } [] rfl rfl rfl

/-- Claim C8: invoking the drain guard while the loop is active or the
queue is empty leaves the state entirely unchanged, and along any run
from the boot state at most one drain-loop instance is ever active, so
at most one job executes at a time. -/
theorem drain_reentry_noop (s : SysState) (tr : List Step)
    (h : s.processingQueue = true ∨ s.requestQueue = []) :
    step s Step.drainEnter = s ∧ (run initState tr).loopCount ≤ 1 := by
  constructor
  · rcases h with h | h
    · rcases hq : s.requestQueue with _ | ⟨j, rest⟩ <;> simp [step, h, hq]
    · rcases hp : s.processingQueue <;> simp [step, h, hp]
  · have hl := loopFlag_run initState tr (by simp [LoopFlagCount, initState])
    rw [LoopFlagCount] at hl
    rw [hl]
    split <;> omega

/-- Witness for claim C8: re-invoking drain on the idle empty state. -/
theorem drain_reentry_noop_witness :
    step initState Step.drainEnter = initState
    ∧ (run initState [Step.drainEnter]).loopCount ≤ 1 :=
  drain_reentry_noop initState [Step.drainEnter] (Or.inr rfl)

end CfClearance
